import Mathlib

/-!
Verification development for the `assemblies` repository (Python).

Shallow embedding of the claim-relevant parts of
`src/assemblies/assembly_fun.py`, `src/assembly_calculus/brain/components.py`
and `src/assembly_calculus/assemblies/assembly.py`.

Modelling conventions:
* a CPython `dict` from neuron index to age is an insertion-ordered association
  list with distinct keys (CPython dicts preserve insertion order);
* Python `float` plasticity rates are modelled as `ℚ` (the embedded code only
  stores and returns them, it never does arithmetic on them);
* raising an exception is modelled with `Except`;
* mutating a dict while iterating over it raises `RuntimeError` in CPython at
  the next step of the iterator; the embedding reproduces this faithfully.
-/

/-- Python exceptions that the embedded code can raise. -/
inductive PyErr
  | indexError (msg : String)
  | typeError (msg : String)
  | assertionError (msg : String)
  | runtimeError (msg : String)
  deriving DecidableEq

/-- A support map: Python dict from neuron index to age, in insertion order. -/
abbrev SupportMap := List (Nat × Nat)

/-- `d[key] = v` on a Python dict: if the key is present the value is updated in
place (position in the insertion order preserved), otherwise the pair is
appended at the end. Embeds `self.support[neuron] = 1` in
`Assembly._update_support` (assembly_fun.py line 57). -/
def dictSet (d : SupportMap) (key v : Nat) : SupportMap :=
  if d.any (fun kv => kv.1 == key) then
    d.map (fun kv => if kv.1 == key then (key, v) else kv)
  else
    d ++ [(key, v)]

/-- The eviction loop of `Assembly._update_support` (assembly_fun.py lines
60-63):

```python
for neuron in self.support:
    if self.support[neuron] < oldest:
        continue
    del self.support[neuron]
```

Deleting a key from a dict that is being iterated makes the next step of the
iterator raise `RuntimeError: dictionary changed size during iteration` in
CPython (the size check happens even when the iterator would otherwise be
exhausted), so the loop aborts right after the first deletion. `.ok` is the
map after a pass that deleted nothing; `.error` carries the map left behind by
an aborted pass (scanned prefix, first old entry deleted, suffix untouched). -/
def evictPass (oldest : Nat) : SupportMap → Except SupportMap SupportMap
  | [] => .ok []
  | kv :: rest =>
    if kv.2 < oldest then
      match evictPass oldest rest with
      | .ok d => .ok (kv :: d)
      | .error d => .error (kv :: d)
    else
      .error rest

/-- Shallow embedding of `Assembly._update_support` (assembly_fun.py lines
47-63), acting on a support map with capacity `support_size`:

```python
oldest = 1
for neuron in self.support:
    self.support[neuron] += 1
    oldest = max(oldest, self.support[neuron])
for neuron in winners:
    self.support[neuron] = 1
if len(self.support) <= self.support_size:
    return
<eviction loop, see evictPass>
```

`.ok` is the support map on normal return; `.error` carries the support map
left behind when the eviction loop raises `RuntimeError`. -/
def updateSupport (support_size : Nat) (support : SupportMap) (winners : List Nat) :
    Except SupportMap SupportMap :=
  let aged := support.map (fun kv => (kv.1, kv.2 + 1))
  let oldest := aged.foldl (fun m kv => max m kv.2) 1
  let d := winners.foldl (fun acc w => dictSet acc w 1) aged
  if d.length ≤ support_size then .ok d
  else evictPass oldest d

/-- A sequence of `_update_support` calls on one assembly, starting from a given
support map; a raised `RuntimeError` propagates and aborts the remaining calls. -/
def runUpdates (support_size : Nat) (support : SupportMap) :
    List (List Nat) → Except SupportMap SupportMap
  | [] => .ok support
  | ws :: rest =>
    match updateSupport support_size support ws with
    | .ok d => runUpdates support_size d rest
    | .error d => .error d

/-- `Area` from `assembly_calculus/brain/components.py` (lines 13-21); fields in
the order `__init__` assigns them. -/
structure Area where
  beta : ℚ
  n : Nat
  k : Nat
  deriving DecidableEq

/-- Shallow embedding of `Area.__init__` (components.py lines 14-21):

```python
self.beta = beta
self.n = n
self.k = k if k is not None else int(n ** 0.5)
if k == 0:
    self.k = math.sqrt(n)
```

For a natural `n`, `int(n ** 0.5)` is the floor of the square root, `Nat.sqrt n`
(the double-precision computation agrees with the exact floor for every `n` in
the realizable range). When the caller passes `k = 0` the source stores the
float `math.sqrt(n)` in `self.k`; its numeric value is again modelled as
`Nat.sqrt n`. The body contains no validation and no raise statement, which the
`Except` result records by never producing `.error`. -/
def areaInit (n : Nat) (k : Option Nat) (beta : ℚ) : Except PyErr Area :=
  let a : Area := { beta := beta, n := n,
                    k := match k with
                         | some kk => kk
                         | none => Nat.sqrt n }
  if k = some 0 then .ok { a with k := Nat.sqrt n } else .ok a

/-- The default `k` claimed by the spec, written from the spec words
`round(sqrt(n))`: round-to-nearest of the real square root. For `s = ⌊√n⌋`,
`√n` rounds up exactly when `√n ≥ s + 1/2`, i.e. when `n - s² > s` (a tie
`√n = s + 1/2` is impossible for integer `n`). This definition exists only to
be compared against `areaInit`; it is not part of the source. -/
def specRoundSqrt (n : Nat) : Nat :=
  let s := Nat.sqrt n
  if s < n - s * s then s + 1 else s

/-- `Stimulus` from `assembly_calculus/brain/components.py` (lines 41-45). -/
structure Stimulus where
  n : Nat
  beta : ℚ
  deriving DecidableEq

/-- `BrainPart = Union[Area, Stimulus]` (components.py line 64). -/
inductive BrainPart
  | area (a : Area)
  | stimulus (s : Stimulus)
  deriving DecidableEq

/-- The `beta` attribute of a `BrainPart`. -/
def BrainPart.beta : BrainPart → ℚ
  | .area a => a.beta
  | .stimulus s => s.beta

/-- `Connection` from `assembly_calculus/brain/components.py` (lines 67-73):
source, dest, and a synapse dict (keyed by `int` per its `__getitem__`). -/
structure Connection where
  source : BrainPart
  dest : BrainPart
  synapses : List (Nat × ℚ)

/-- Shallow embedding of the `Connection.beta` property (components.py lines
75-80):

```python
if isinstance(self.source, Stimulus):
    return self.dest.beta
return self.source.beta
```
-/
def Connection.beta (c : Connection) : ℚ :=
  match c.source with
  | .stimulus _ => c.dest.beta
  | .area a => a.beta

/-- A Python object as seen by `AssemblyTuple.__init__`
(assembly_calculus/assemblies/assembly.py): an `Assembly` instance, a
`Stimulus` instance, or any other object. -/
inductive PyObj
  | assembly (uid : Nat)
  | stimulus (uid : Nat)
  | other (uid : Nat)
  deriving DecidableEq

/-- `isinstance(x, Assembly) or isinstance(x, Stimulus)` (assembly.py line 44). -/
def isProjectable : PyObj → Bool
  | .assembly _ => true
  | .stimulus _ => true
  | .other _ => false

/-- Shallow embedding of `AssemblyTuple.__init__` (assembly.py lines 36-47):

```python
if len(assemblies) == 0:
    raise IndexError("Assembly tuple is empty")
if not all([isinstance(x, Assembly) or isinstance(x, Stimulus) for x in assemblies]):
    raise TypeError("Tried to initialize Assembly tuple with invalid object")
self.assemblies = assemblies
```
-/
def assemblyTupleInit (assemblies : List PyObj) : Except PyErr (List PyObj) :=
  if assemblies.length = 0 then
    .error (.indexError "Assembly tuple is empty")
  else if !(assemblies.all isProjectable) then
    .error (.typeError "Tried to initialize Assembly tuple with invalid object")
  else
    .ok assemblies

/-- Faithful translation of the guard at the top of `Assembly.project`
(assembly.py lines 254-255) and, identically, of `AssemblyTuple._merge`
(assembly.py lines 85-86):

```python
if not isinstance(area, Area) and area in brain.recipe.areas:
    raise TypeError("Projection target must be an Area in the Brain")
```

The two atomic tests are abstracted as the Booleans `targetIsArea`
(`isinstance(area, Area)`) and `targetInRecipeAreas`
(`area in brain.recipe.areas`); the guard raises iff the conjunction below is
true. -/
def projectGuard (targetIsArea targetInRecipeAreas : Bool) : Bool :=
  (!targetIsArea) && targetInRecipeAreas

/-- The guard the spec describes, written from the spec words (a target that is
not an Area registered in the brain is rejected): raise iff the target is not
both an Area and registered. This definition exists only to be compared
against `projectGuard`; it is not part of the source. -/
def specProjectGuard (targetIsArea targetInRecipeAreas : Bool) : Bool :=
  !(targetIsArea && targetInRecipeAreas)

/-- `Assembly.project` up to and including its first brain mutation: if the
guard fires, `TypeError` is raised; otherwise, with a bound brain, execution
proceeds to overwrite `brain.winners[area]` and run `brain.next_round`
(assembly.py lines 257-263). The `Bool` result records that brain state was
mutated on the non-raising path. -/
def projectRun (targetIsArea targetInRecipeAreas : Bool) : Except PyErr Bool :=
  if projectGuard targetIsArea targetInRecipeAreas then
    .error (.typeError "Projection target must be an Area in the Brain")
  else
    .ok true

/-- `Assembly` from `assemblies/assembly_fun.py` (lines 18-45), restricted to
the fields the claims touch: the identity of the area it lives in, its
`support_size`, its `support` dict (empty on construction, line 41), and `t`. -/
structure Assembly where
  area : Nat
  support_size : Nat
  support : SupportMap
  t : Nat
  deriving DecidableEq

/-- Modelled from the spec: `area_name` is resolved through `brain.components`
and the `Bindable` machinery (`utils/`), which are not under `src/`. Per the
spec an Area is a static descriptor with an identity, so an area is identified
here by a `Nat` uid and `area_name` equality coincides with area identity. -/
def Assembly.area_name (a : Assembly) : Nat := a.area

/-- Shallow embedding of the body of `Assembly._merge` (assembly_fun.py lines
121-143) for one execution of the body:

```python
assert assembly1.area_name != assembly2.area_name, "Areas are the same"
merged_assembly = Assembly([assembly1, assembly2], area, assembly1.support_size, t=assembly1.t, ...)
if brain is not None:
    Assembly.fire_many(brain, [assembly1, assembly2], area)
    merged_assembly.update_support(brain, brain.get_winners(area))
```

`winners` is `brain.get_winners(area)` after the firing round when a brain is
bound (`some ws`), and `none` when `brain is None`. `Brain`, `fire_many`,
`get_winners` and the `Repeat`/`Bindable` decorators live outside `src/`;
firing mutates only brain state, never the support of the freshly constructed
merged assembly, so the merged assembly is determined by the winner list alone.
The `update_support` call dispatches to `_update_support`; a `RuntimeError`
raised there propagates out of `_merge`. -/
def Assembly.merge (assembly1 assembly2 : Assembly) (area : Nat)
    (winners : Option (List Nat)) : Except PyErr Assembly :=
  if assembly1.area_name = assembly2.area_name then
    .error (.assertionError "Areas are the same")
  else
    let merged : Assembly := { area := area, support_size := assembly1.support_size,
                               support := [], t := assembly1.t }
    match winners with
    | none => .ok merged
    | some ws =>
      match updateSupport merged.support_size merged.support ws with
      | .ok s => .ok { merged with support := s }
      | .error _ => .error (.runtimeError "dictionary changed size during iteration")

/-- Shallow embedding of the static method `Assembly.assembly_hash`
(assembly_calculus/assemblies/assembly.py lines 181-188):

```python
return hash((area, *sorted(parents, key=hash)))
```

The Python builtin `hash` is opaque, so it is a parameter `h`; the CPython
tuple hash is a pure function of the hashes of the items in order, so it is a
parameter `tupleHash` applied to that list of item hashes. `sorted` with
`key=hash` sorts the parents ascending by hash value. -/
def Assembly.assembly_hash {α : Type} (h : α → Int) (tupleHash : List Int → Int)
    (area : α) (parents : List α) : Int :=
  tupleHash (h area :: (parents.mergeSort (fun a b => decide (h a ≤ h b))).map h)

/-! ## Helper lemmas -/

/-- Setting a key absent from the map appends the pair at the end. -/
theorem dictSet_fresh (d : SupportMap) (w v : Nat) (hw : ∀ kv ∈ d, kv.1 ≠ w) :
    dictSet d w v = d ++ [(w, v)] := by
  have hany : d.any (fun kv => kv.1 == w) = false := by
    rw [List.any_eq_false]
    intro kv hkv
    simpa using hw kv hkv
  simp [dictSet, hany]

/-- Folding the winner-reset loop over keys that are all fresh and distinct
appends one age-1 entry per winner, in winner order. -/
theorem foldl_dictSet_fresh :
    ∀ (ws : List Nat) (d : SupportMap), ws.Nodup → (∀ w ∈ ws, ∀ kv ∈ d, kv.1 ≠ w) →
      ws.foldl (fun acc w => dictSet acc w 1) d = d ++ ws.map (fun w => (w, 1))
  | [], d, _, _ => by simp
  | w :: ws, d, hnd, hfresh => by
    have hset : dictSet d w 1 = d ++ [(w, 1)] :=
      dictSet_fresh d w 1 (fun kv hkv => hfresh w (by simp) kv hkv)
    have hnd' : ws.Nodup := (List.nodup_cons.mp hnd).2
    have hw : w ∉ ws := (List.nodup_cons.mp hnd).1
    have hfresh' : ∀ u ∈ ws, ∀ kv ∈ d ++ [(w, 1)], kv.1 ≠ u := by
      intro u hu kv hkv
      rcases List.mem_append.mp hkv with hkv | hkv
      · exact hfresh u (by simp [hu]) kv hkv
      · simp only [List.mem_singleton] at hkv
        subst hkv
        intro hcontra
        simp only at hcontra
        apply hw
        rw [hcontra]
        exact hu
    calc (w :: ws).foldl (fun acc u => dictSet acc u 1) d
        = ws.foldl (fun acc u => dictSet acc u 1) (d ++ [(w, 1)]) := by
          simp [List.foldl_cons, hset]
      _ = (d ++ [(w, 1)]) ++ ws.map (fun u => (u, 1)) :=
          foldl_dictSet_fresh ws (d ++ [(w, 1)]) hnd' hfresh'
      _ = d ++ (w :: ws).map (fun u => (u, 1)) := by simp

/-- `_update_support` on an empty support map with distinct winners that fit
into the capacity returns the winners, each with age 1, in winner order. -/
theorem updateSupport_empty (support_size : Nat) (ws : List Nat)
    (hnd : ws.Nodup) (hlen : ws.length ≤ support_size) :
    updateSupport support_size [] ws = .ok (ws.map (fun w => (w, 1))) := by
  unfold updateSupport
  simp only [List.map_nil, List.foldl_nil]
  rw [foldl_dictSet_fresh ws [] hnd (by simp)]
  simp only [List.nil_append]
  rw [if_pos (by simpa using hlen)]

/-! ## Claim theorems -/

/-- Claim C1 (code bug). The spec invariant `|support| <= support_size` fails:
with `support_size = 1`, the call sequence `update_support([0])` then
`update_support([0, 1])` returns normally (no exception) and leaves two
entries in the support map. On the second call the only maximum-age entry is
neuron 0, but the winner loop has already reset its age to 1, so the eviction
pass removes nothing and the map stays above capacity. -/
theorem update_support_capacity_violated :
    ∃ d : SupportMap, runUpdates 1 [] [[0], [0, 1]] = .ok d ∧ 1 < d.length :=
  ⟨[(0, 1), (1, 1)], rfl, by decide⟩

/-- Claim C2 (code bug). The eviction clause of the spec contract fails on the
code in both reachable over-capacity shapes. First conjunct: with
`support_size = 1`, support `{0: 1}` and winners `[0, 1]`, the code returns
normally with both entries still present (the claim demands repeated removal
of maximum-age entries until the count is at most 1). Second conjunct: on an
empty support with winners `[0, 1]`, the eviction pass deletes neuron 0 and
the dict iterator then raises `RuntimeError`, leaving `{1: 1}` (the claim
demands a normal return). -/
theorem update_support_eviction_diverges :
    updateSupport 1 [(0, 1)] [0, 1] = .ok [(0, 1), (1, 1)]
      ∧ updateSupport 1 [] [0, 1] = .error [(1, 1)] :=
  ⟨rfl, rfl⟩

/-- Claim C3 (code bug). `Connection.beta` returns the SOURCE beta when the
source is an Area: for `Connection(source=Area(beta=1), dest=Area(beta=2))`
the property returns 1, not the dest beta 2, contradicting the claim and the
TODO in the source (`always define by dest`). -/
theorem connection_beta_area_source :
    (Connection.mk (BrainPart.area { beta := 1, n := 10, k := 3 })
        (BrainPart.area { beta := 2, n := 20, k := 4 }) []).beta = 1
      ∧ (Connection.mk (BrainPart.area { beta := 1, n := 10, k := 3 })
          (BrainPart.area { beta := 2, n := 20, k := 4 }) []).dest.beta = 2
      ∧ ¬ (Connection.mk (BrainPart.area { beta := 1, n := 10, k := 3 })
            (BrainPart.area { beta := 2, n := 20, k := 4 }) []).beta
          = (Connection.mk (BrainPart.area { beta := 1, n := 10, k := 3 })
              (BrainPart.area { beta := 2, n := 20, k := 4 }) []).dest.beta :=
  ⟨rfl, rfl, by decide⟩

/-- Claim C5, counterexample. For `n = 3` the constructor stores
`k = int(3 ** 0.5) = 1`, while the spec default `round(sqrt(3))` is 2. -/
theorem area_default_k_not_round :
    areaInit 3 none 1 = .ok { beta := 1, n := 3, k := 1 }
      ∧ specRoundSqrt 3 = 2 ∧ (1 : Nat) ≠ 2 := by
  have h3 : Nat.sqrt 3 = 1 := (Nat.eq_sqrt.mpr (by decide)).symm
  refine ⟨?_, ?_, by decide⟩
  · simp [areaInit, h3]
  · simp [specRoundSqrt, h3]

/-- Claim C5, amended. For every positive `n`, constructing an Area with no
explicit `k` sets `k` to the floor of the square root of `n` (the value of
`int(n ** 0.5)`), characterized by `k² ≤ n < (k+1)²` — not to
`round(sqrt(n))`. -/
theorem area_default_k_floor (n : Nat) (beta : ℚ) (_hn : 0 < n) :
    ∃ a : Area, areaInit n none beta = .ok a
      ∧ a.k * a.k ≤ n ∧ n < (a.k + 1) * (a.k + 1) := by
  refine ⟨{ beta := beta, n := n, k := Nat.sqrt n }, ?_, Nat.sqrt_le n, Nat.lt_succ_sqrt n⟩
  simp [areaInit]

/-- Witness for `area_default_k_floor` at `n = 7`. -/
theorem area_default_k_floor_witness :
    ∃ a : Area, areaInit 7 none 1 = .ok a
      ∧ a.k * a.k ≤ 7 ∧ 7 < (a.k + 1) * (a.k + 1) :=
  area_default_k_floor 7 1 (by decide)

/-- Claim C6, counterexample. `Area.__init__` performs no validation:
`Area(n=5, k=10)` constructs successfully with `k = 10 > 5 = n`, so the
claimed fatal configuration error does not exist and the claimed invariant
`0 < k ≤ n` does not hold for every constructed Area. -/
theorem area_no_validation_counterexample :
    areaInit 5 (some 10) 1 = .ok { beta := 1, n := 5, k := 10 } ∧ ¬ (10 ≤ 5) :=
  ⟨rfl, by decide⟩

/-- Claim C6, amended. Area construction never raises and enforces nothing:
for every `n`, an Area with `k = n + 1 > n` is constructed successfully, and
`Area(n=0)` with the default `k` is constructed successfully with `k = 0`,
violating `0 < k`. -/
theorem area_init_never_fails (n : Nat) (beta : ℚ) :
    areaInit n (some (n + 1)) beta = .ok { beta := beta, n := n, k := n + 1 }
      ∧ ¬ (n + 1 ≤ n)
      ∧ areaInit 0 none beta = .ok { beta := beta, n := 0, k := 0 } := by
  refine ⟨?_, by omega, rfl⟩
  simp [areaInit]

/-- Claim C7 (code bug). The registration guard of `Assembly.project` (and of
`AssemblyTuple._merge`) is inverted. For a target that IS an Area but is NOT
registered in `brain.recipe.areas`, the code raises nothing and proceeds to
mutate brain state (first conjunct), while the spec — and the raise message in
the source itself — demand a `TypeError` there (second conjunct). The third
conjunct characterizes the code guard: it fires only in the bizarre opposite
case of a non-Area target that IS registered. -/
theorem project_guard_inverted :
    projectRun true false = .ok true
      ∧ specProjectGuard true false = true
      ∧ (∀ a r : Bool, projectGuard a r = true ↔ a = false ∧ r = true) :=
  ⟨rfl, rfl, by decide⟩

/-- Claim C4, counterexample. Merging two assemblies from different areas
(uids 0 and 1) into area 2 with round winners `[0, 1]` and
`support_size = 1`: the winners do not fit into the support capacity, the
eviction loop of `_update_support` deletes the first winner and the dict
iterator raises `RuntimeError`, which propagates out of `_merge`. The merged
support is NOT the winner set with age 1 each. -/
theorem merge_support_counterexample :
    Assembly.merge { area := 0, support_size := 1, support := [], t := 1 }
        { area := 1, support_size := 1, support := [], t := 1 } 2 (some [0, 1])
      = .error (.runtimeError "dictionary changed size during iteration") :=
  rfl

/-- Claim C4, amended. When two assemblies from different areas are merged
into a third area with a bound brain, and the round winner list of the target
area is duplicate-free and fits into the merged assembly `support_size`, the
merged assembly support map afterwards is exactly the winners, each with
age 1 (in winner order). -/
theorem merge_support_winners (assembly1 assembly2 : Assembly) (area : Nat)
    (ws : List Nat) (harea : assembly1.area_name ≠ assembly2.area_name)
    (hnd : ws.Nodup) (hlen : ws.length ≤ assembly1.support_size) :
    Assembly.merge assembly1 assembly2 area (some ws)
      = .ok { area := area, support_size := assembly1.support_size,
              support := ws.map (fun w => (w, 1)), t := assembly1.t } := by
  unfold Assembly.merge
  rw [if_neg harea]
  simp only
  rw [updateSupport_empty assembly1.support_size ws hnd hlen]

/-- Witness for `merge_support_winners`: assemblies in areas 0 and 1 merged
into area 2 with winners `[5, 7]` and `support_size = 2`. -/
theorem merge_support_winners_witness :
    Assembly.merge { area := 0, support_size := 2, support := [], t := 1 }
        { area := 1, support_size := 2, support := [], t := 1 } 2 (some [5, 7])
      = .ok { area := 2, support_size := 2, support := [(5, 1), (7, 1)], t := 1 } :=
  merge_support_winners
    { area := 0, support_size := 2, support := [], t := 1 }
    { area := 1, support_size := 2, support := [], t := 1 } 2 [5, 7]
    (by decide) (by decide) (by decide)

/-- Claim C8 (confirmed). `_merge` asserts the two parent assemblies live in
different areas before anything else happens: with equal `area_name` it
raises `AssertionError("Areas are the same")` without constructing the merged
assembly or touching any state; with different `area_name` that rejection
never occurs, and (run without a bound brain) the merge proceeds and returns
a merged assembly in the target area. -/
theorem merge_same_area_rejected (assembly1 assembly2 : Assembly) (area : Nat)
    (winners : Option (List Nat)) :
    (assembly1.area_name = assembly2.area_name →
      Assembly.merge assembly1 assembly2 area winners
        = .error (.assertionError "Areas are the same"))
      ∧ (assembly1.area_name ≠ assembly2.area_name →
          Assembly.merge assembly1 assembly2 area winners
              ≠ .error (.assertionError "Areas are the same")
            ∧ ∃ m : Assembly, Assembly.merge assembly1 assembly2 area none = .ok m
                ∧ m.area = area) := by
  constructor
  · intro heq
    unfold Assembly.merge
    rw [if_pos heq]
  · intro hne
    unfold Assembly.merge
    rw [if_neg hne, if_neg hne]
    refine ⟨?_, ⟨_, rfl, rfl⟩⟩
    match winners with
    | none => simp
    | some ws =>
      simp only
      match updateSupport assembly1.support_size [] ws with
      | .ok s => simp
      | .error s => simp

/-- Witness for `merge_same_area_rejected`: both parts at concrete inputs
(two assemblies in area 0, and assemblies in areas 0 and 1). -/
theorem merge_same_area_rejected_witness :
    (Assembly.merge { area := 0, support_size := 1, support := [], t := 1 }
        { area := 0, support_size := 1, support := [], t := 1 } 2 none
      = .error (.assertionError "Areas are the same"))
      ∧ (Assembly.merge { area := 0, support_size := 1, support := [], t := 1 }
            { area := 1, support_size := 1, support := [], t := 1 } 2 none
          ≠ .error (.assertionError "Areas are the same")
        ∧ ∃ m : Assembly,
            Assembly.merge { area := 0, support_size := 1, support := [], t := 1 }
              { area := 1, support_size := 1, support := [], t := 1 } 2 none = .ok m
            ∧ m.area = 2) :=
  ⟨(merge_same_area_rejected { area := 0, support_size := 1, support := [], t := 1 }
      { area := 0, support_size := 1, support := [], t := 1 } 2 none).1 rfl,
   (merge_same_area_rejected { area := 0, support_size := 1, support := [], t := 1 }
      { area := 1, support_size := 1, support := [], t := 1 } 2 none).2 (by decide)⟩

/-- Claim C9 (confirmed). `AssemblyTuple.__init__` raises `IndexError` on an
empty argument tuple; raises `TypeError` when some element is neither an
Assembly nor a Stimulus; and otherwise stores exactly the given arguments in
order. -/
theorem assembly_tuple_init_contract :
    assemblyTupleInit [] = .error (.indexError "Assembly tuple is empty")
      ∧ (∀ xs : List PyObj, xs ≠ [] → (∃ x ∈ xs, isProjectable x = false) →
          assemblyTupleInit xs
            = .error (.typeError "Tried to initialize Assembly tuple with invalid object"))
      ∧ (∀ xs : List PyObj, (∀ x ∈ xs, isProjectable x = true) → xs ≠ [] →
          assemblyTupleInit xs = .ok xs) := by
  refine ⟨rfl, ?_, ?_⟩
  · rintro xs hne ⟨x, hx, hxbad⟩
    unfold assemblyTupleInit
    rw [if_neg (by simpa using hne), if_pos]
    simp only [Bool.not_eq_true', List.all_eq_false]
    exact ⟨x, hx, by simp [hxbad]⟩
  · intro xs hall hne
    unfold assemblyTupleInit
    rw [if_neg (by simpa using hne), if_neg]
    simp only [Bool.not_eq_true', Bool.not_eq_false, List.all_eq_true]
    exact hall

/-- Witness for `assembly_tuple_init_contract`: the three branches at concrete
inputs — the empty tuple, a tuple holding a non-projectable object, and a
tuple of an Assembly and a Stimulus. -/
theorem assembly_tuple_init_contract_witness :
    assemblyTupleInit [] = .error (.indexError "Assembly tuple is empty")
      ∧ assemblyTupleInit [PyObj.other 0]
          = .error (.typeError "Tried to initialize Assembly tuple with invalid object")
      ∧ assemblyTupleInit [PyObj.assembly 0, PyObj.stimulus 1]
          = .ok [PyObj.assembly 0, PyObj.stimulus 1] :=
  ⟨assembly_tuple_init_contract.1,
   assembly_tuple_init_contract.2.1 [PyObj.other 0] (by decide)
     ⟨PyObj.other 0, by decide, rfl⟩,
   assembly_tuple_init_contract.2.2 [PyObj.assembly 0, PyObj.stimulus 1]
     (by decide) (by decide)⟩

/-- Claim C10 (confirmed). `Assembly.assembly_hash` is invariant under
permutation of the parent list, for EVERY hash function `h` on parents and
every tuple-hash combiner: sorting the parents by hash value turns any two
permutations into lists whose hash sequences are the same sorted list, and
the final hash only depends on those hash sequences. Hence two Assembly
constructions whose parent sequences are permutations of each other get the
same uid. -/
theorem assembly_hash_perm_invariant {α : Type} (h : α → Int)
    (tupleHash : List Int → Int) (area : α) (ps qs : List α)
    (hpq : ps.Perm qs) :
    Assembly.assembly_hash h tupleHash area ps
      = Assembly.assembly_hash h tupleHash area qs := by
  have hsorted : ∀ l : List α,
      List.Sorted (· ≤ ·) ((l.mergeSort (fun a b => decide (h a ≤ h b))).map h) := by
    intro l
    have htrans : ∀ a b c : α, decide (h a ≤ h b) = true → decide (h b ≤ h c) = true →
        decide (h a ≤ h c) = true := fun a b c hab hbc =>
      decide_eq_true (le_trans (of_decide_eq_true hab) (of_decide_eq_true hbc))
    have htotal : ∀ a b : α, (decide (h a ≤ h b) || decide (h b ≤ h a)) = true := by
      intro a b
      rcases le_total (h a) (h b) with hle | hle
      · simp [decide_eq_true hle]
      · simp [decide_eq_true hle]
    have hpair := @List.sorted_mergeSort α (fun a b => decide (h a ≤ h b)) htrans htotal l
    exact List.Pairwise.map h (fun a b hab => of_decide_eq_true hab) hpair
  have key : ((ps.mergeSort (fun a b => decide (h a ≤ h b))).map h)
      = ((qs.mergeSort (fun a b => decide (h a ≤ h b))).map h) := by
    apply List.eq_of_perm_of_sorted _ (hsorted ps) (hsorted qs)
    exact ((ps.mergeSort_perm _).map h).trans
      ((hpq.map h).trans (((qs.mergeSort_perm _).map h).symm))
  unfold Assembly.assembly_hash
  rw [key]

/-- Witness for `assembly_hash_perm_invariant`: a concrete hash function,
tuple combiner and permuted parent lists. -/
theorem assembly_hash_perm_invariant_witness :
    Assembly.assembly_hash (fun u : Nat => (u : Int)) (fun l => l.sum) 0 [1, 2, 3]
      = Assembly.assembly_hash (fun u : Nat => (u : Int)) (fun l => l.sum) 0 [3, 1, 2] :=
  assembly_hash_perm_invariant (fun u : Nat => (u : Int)) (fun l => l.sum) 0
    [1, 2, 3] [3, 1, 2] (by decide)
